import Mathlib

/-!
Verification of the HROne e-commerce backend (src/main.py, src/database.py).

The embedding models the three endpoints that the claims are about:
list_products (GET /products), create_order (POST /orders) and
get_list_of_orders (GET /orders/\x7buser_id\x7d).  The MongoDB document store
is modelled as in-memory lists of records; ObjectId values are kept in
their canonical 24-hex-character string form, and bson ObjectId validity
is the pure format check on that text form.  Prices are modelled as
integers: the claims use prices only through sums and products, so the
rounding behaviour of Python floats is outside their scope and is not
modelled.  Store reads and the single order insert performed by
create_order are made explicit as a trace of store operations, so that
"rejected before any store access" and "no partial write" are statable.
-/

/-- A size entry of a product (pydantic model `Size` in src/main.py). -/
structure PSize where
  size : String
  quantity : Int
deriving DecidableEq

/-- A persisted product document: `_id` (canonical string form), name, price,
sizes. Corresponds to what create_product inserts. -/
structure Product where
  id : String
  name : String
  price : Int
  sizes : List PSize
deriving DecidableEq

/-- A line item of an order request (pydantic model `OrderItem`). -/
structure OrderItem where
  productId : String
  qty : Int
deriving DecidableEq

/-- An order-creation request body (pydantic model `OrderCreate`). -/
structure OrderCreate where
  userId : String
  items : List OrderItem
deriving DecidableEq

/-- A persisted order document, as inserted by create_order:
`_id`, userId, items, total and created_at (modelled as a Nat tick). -/
structure OrderDoc where
  id : String
  userId : String
  items : List OrderItem
  total : Int
  created_at : Nat
deriving DecidableEq

/-- Pagination metadata block returned by the listing endpoints. -/
structure Page where
  limit : Nat
  next : String
  previous : String
deriving DecidableEq

/-- The page metadata computed by both listing endpoints:
`limit` is the actual returned count, `next` is `str(offset + count)` and
`previous` is `str(offset - limit)` when that is nonnegative, else `str(-1)`. -/
def pageOf (offset limit count : Nat) : Page :=
  { limit := count
    next := toString ((offset : Int) + (count : Int))
    previous :=
      if (offset : Int) - (limit : Int) ≥ 0 then toString ((offset : Int) - (limit : Int))
      else toString (-1 : Int) }

/-- `leadsList pat l` holds when `pat` is a leading segment of `l`. -/
def leadsList : List Char → List Char → Bool
  | [], _ => true
  | _ :: _, [] => false
  | a :: as, b :: bs => a == b && leadsList as bs

/-- `hasSegment l pat` holds when `pat` occurs as a contiguous segment of `l`. -/
def hasSegment : List Char → List Char → Bool
  | [], pat => pat.isEmpty
  | c :: t, pat => leadsList pat (c :: t) || hasSegment t pat

/-- Case-insensitive match of a product name against a query pattern: models the
Mongo filter \x7b"$regex": pat, "$options": "i"\x7d for pattern strings without
regex metacharacters (every pattern appearing in the claims is such a literal),
i.e. case-insensitive substring containment. -/
def regexMatchI (pat s : String) : Bool :=
  hasSegment (s.data.map Char.toLower) (pat.data.map Char.toLower)

/-- The name condition of the list_products query: Python `if name:` skips the
filter when the parameter is absent or the empty string. -/
def nameCond (nm : Option String) (p : Product) : Bool :=
  match nm with
  | none => true
  | some n => if n = "" then true else regexMatchI n p.name

/-- The size condition of the list_products query: `"sizes.size": size` matches
documents having some size entry equal to the given size; Python `if size:`
skips the filter when the parameter is absent or the empty string. -/
def sizeCond (sz : Option String) (p : Product) : Bool :=
  match sz with
  | none => true
  | some s => if s = "" then true else p.sizes.any (fun e => e.size == s)

/-- The projected record shape returned by list_products (pydantic model
`ProductList`): the `sizes` field is projected away. -/
structure ProductList where
  id : String
  name : String
  price : Int
deriving DecidableEq

/-- GET /products: filter by the (truthy) name and size parameters, skip
`offset`, take `limit`, project each product to \x7bid, name, price\x7d, and
attach page metadata computed from the returned count. -/
def list_products (store : List Product) (nm sz : Option String) (limit offset : Nat) :
    List ProductList × Page :=
  let filtered := store.filter (fun p => nameCond nm p && sizeCond sz p)
  let data := ((filtered.drop offset).take limit).map
    (fun p => ({ id := p.id, name := p.name, price := p.price } : ProductList))
  (data, pageOf offset limit data.length)

/-- Whether a character is a hexadecimal digit. -/
def hexChar (c : Char) : Bool :=
  "0123456789abcdefABCDEF".data.contains c

/-- bson ObjectId validity on a string: exactly 24 hexadecimal characters
(`ObjectId.is_valid`), a pure function of the text form. -/
def isValidObjectId (s : String) : Bool :=
  s.length == 24 && s.data.all hexChar

/-- The store read issued by create_order:
`product_collection.find(\x7b"_id": \x7b"$in": product_ids\x7d\x7d)`. -/
def findIn (store : List Product) (ids : List String) : List Product :=
  store.filter (fun p => ids.contains p.id)

/-- Lookup in the Python dict `price_map = \x7bstr(p["_id"]): p["price"] for p in
products\x7d`: on duplicate keys the last insertion wins, hence the search over
the reversed product list. -/
def priceMapGet (products : List Product) (pid : String) : Option Int :=
  (products.reverse.find? (fun p => p.id == pid)).map (fun p => p.price)

/-- A store operation performed by create_order, in order of execution. -/
inductive StoreOp where
  | findProducts (ids : List String)
  | insertOrder (userId : String) (items : List OrderItem) (total : Int)
deriving DecidableEq

/-- Outcome of create_order: an HTTP error status (client fault), or the
fields of the order document that was inserted. -/
inductive CreateResult where
  | err (status : Nat)
  | ok (userId : String) (items : List OrderItem) (total : Int)
deriving DecidableEq

/-- POST /orders: validate every productId format first (HTTP 400 before any
store access), then fetch the referenced products in one `$in` query, reject
with HTTP 404 unless the number of products fetched equals the number of item
productIds, else compute the total as the sum of price times qty with a
default price of 0 for ids missing from the price map, and insert the order.
Returns the trace of store operations together with the outcome: an error
status code, or the inserted order fields (userId, items, total). -/
def create_order (store : List Product) (req : OrderCreate) :
    List StoreOp × CreateResult :=
  let pids := req.items.map (fun it => it.productId)
  if req.items.all (fun it => isValidObjectId it.productId) then
    let products := findIn store pids
    let total := (req.items.map
      (fun it => (priceMapGet products it.productId).getD 0 * it.qty)).sum
    if products.length == pids.length then
      ([StoreOp.findProducts pids, StoreOp.insertOrder req.userId req.items total],
        CreateResult.ok req.userId req.items total)
    else
      ([StoreOp.findProducts pids], CreateResult.err 404)
  else ([], CreateResult.err 400)

/-- Insert an order into a list sorted by created_at descending, keeping the
relative order of equal keys. -/
def insertByCreated (o : OrderDoc) : List OrderDoc → List OrderDoc
  | [] => [o]
  | x :: xs => if o.created_at ≤ x.created_at then x :: insertByCreated o xs else o :: x :: xs

/-- The `$sort: \x7bcreated_at: -1\x7d` stage: sort by created_at descending. -/
def sortByCreatedDesc : List OrderDoc → List OrderDoc
  | [] => []
  | x :: xs => insertByCreated x (sortByCreatedDesc xs)

/-- One flattened line-item row of the aggregation, after
`$unwind: "$items"`, `$lookup` into products and `$unwind: "$productInfo"`:
it carries the parent order id and total, the item qty and the joined product. -/
structure ItemRow where
  orderId : String
  total : Int
  qty : Int
  product : Product
deriving DecidableEq

/-- Stages 5-7 of the pipeline: flatten each selected order into one row per
line item, join each row with the products whose `_id` equals the row
productId, and unwind the join result — a row whose lookup array is empty is
dropped (inner-join behaviour of `$unwind` without preserveNullAndEmptyArrays). -/
def unwindJoin (store : List Product) (orders : List OrderDoc) : List ItemRow :=
  orders.flatMap (fun o =>
    o.items.flatMap (fun it =>
      (store.filter (fun p => p.id == it.productId)).map
        (fun p => { orderId := o.id, total := o.total, qty := it.qty, product := p })))

/-- The projected productDetails sub-record of an aggregated item. -/
structure ProductDetails where
  id : String
  name : String
deriving DecidableEq

/-- An aggregated item: \x7bqty, productDetails: \x7bid, name\x7d\x7d. -/
structure ItemOut where
  qty : Int
  productDetails : ProductDetails
deriving DecidableEq

/-- The client-facing order group produced by `$group` and `$project`:
\x7bid, total, items\x7d. -/
structure OrderView where
  id : String
  total : Int
  items : List ItemOut
deriving DecidableEq

/-- Keys of a row stream in order of first appearance, skipping keys already
seen: the grouping keys of the `$group` stage. -/
def dedupKeys (seen : List String) : List String → List String
  | [] => []
  | k :: ks => if seen.contains k then dedupKeys seen ks else k :: dedupKeys (k :: seen) ks

/-- The `$group: \x7b_id: "$_id", total: \x7b$first: ...\x7d, items: \x7b$push: ...\x7d\x7d`
stage followed by the final `$project`: one output group per distinct parent
order id, its total taken from the first row of the group, its items the pushed
\x7bqty, productDetails\x7d records in row order. -/
def groupRows (rows : List ItemRow) : List OrderView :=
  (dedupKeys [] (rows.map (fun r => r.orderId))).map (fun k =>
    let grp := rows.filter (fun r => r.orderId == k)
    { id := k
      total := (grp.head?.map (fun r => r.total)).getD 0
      items := grp.map (fun r =>
        { qty := r.qty
          productDetails := { id := r.product.id, name := r.product.name } }) })

/-- GET /orders/\x7buser_id\x7d: the aggregation pipeline — match by userId, sort by
created_at descending, skip `offset`, take `limit`, then unwind, join, regroup
and project; `to_list(length=limit)` caps the cursor at `limit` documents.
Returns the data together with the page metadata computed from the returned
count. -/
def get_list_of_orders (store : List Product) (orders : List OrderDoc)
    (user_id : String) (limit offset : Nat) : List OrderView × Page :=
  let selected :=
    ((sortByCreatedDesc (orders.filter (fun o => o.userId == user_id))).drop offset).take limit
  let data := (groupRows (unwindJoin store selected)).take limit
  (data, pageOf offset limit data.length)

/-- The price of the product a line item references, in the words of the spec
("the referenced product's current price"): the first product in the store with
the given id, defaulting to 0 when none exists (the default is unused under the
claims' hypotheses). Spec-side definition, to be compared with the code's
price-map lookup. -/
def specPrice (store : List Product) (pid : String) : Int :=
  ((store.find? (fun p => p.id == pid)).map (fun p => p.price)).getD 0

/-- Sample data: a valid (24-hex) product id. -/
def idA : String := "aaaaaaaaaaaaaaaaaaaaaaaa"

/-- Sample data: a second valid (24-hex) product id. -/
def idB : String := "bbbbbbbbbbbbbbbbbbbbbbbb"

/-- Sample data: a product with id `idA`, name containing "shirt" (capitalised)
and an "M" size entry. -/
def shirtA : Product :=
  { id := idA, name := "Shirt Alpha", price := 5, sizes := [{ size := "M", quantity := 3 }] }

/-- Sample data: a product with id `idB`, name containing "shirt" (lower case)
and an "M" size entry. -/
def shirtB : Product :=
  { id := idB, name := "shirt beta", price := 7, sizes := [{ size := "M", quantity := 2 }] }

/-- Sample data: an order of user "u1" with one line item referencing `idA`. -/
def ord1 : OrderDoc :=
  { id := idA, userId := "u1", items := [{ productId := idA, qty := 2 }], total := 10,
    created_at := 1 }

/-- Sample data: an order request of user "u1" over both sample products. -/
def req2 : OrderCreate :=
  { userId := "u1", items := [{ productId := idA, qty := 2 }, { productId := idB, qty := 3 }] }

/-- Sample data: the line-item row produced by flattening `ord1` and joining
its single item with `shirtA`. -/
def row1 : ItemRow :=
  { orderId := idA, total := 10, qty := 2, product := shirtA }


/-- The grouping keys are distinct and each was neither seen before nor absent
from the input stream. -/
theorem dedupKeys_spec (ks : List String) : ∀ seen : List String,
    (dedupKeys seen ks).Nodup ∧ ∀ x ∈ dedupKeys seen ks, x ∈ ks ∧ ¬ x ∈ seen := by
  induction ks with
  | nil => intro seen; simp [dedupKeys]
  | cons k ks ih =>
    intro seen
    by_cases h : seen.contains k = true
    · rw [dedupKeys, if_pos h]
      refine ⟨(ih seen).1, fun x hx => ?_⟩
      have hx2 := (ih seen).2 x hx
      exact ⟨List.mem_cons_of_mem _ hx2.1, hx2.2⟩
    · rw [dedupKeys, if_neg h]
      have hks := ih (k :: seen)
      constructor
      · refine List.nodup_cons.mpr ⟨fun hk => ?_, hks.1⟩
        exact (hks.2 k hk).2 (List.mem_cons_self _ _)
      · intro x hx
        rcases List.mem_cons.mp hx with rfl | hx2
        · refine ⟨List.mem_cons_self _ _, fun hseen => h ?_⟩
          simpa using hseen
        · have hx3 := hks.2 x hx2
          exact ⟨List.mem_cons_of_mem _ hx3.1, fun hs => hx3.2 (List.mem_cons_of_mem _ hs)⟩

/-- A duplicate-free list contained in another list is no longer than it. -/
theorem nodup_sub_length_le {α : Type} [DecidableEq α] {l t : List α}
    (h1 : l.Nodup) (h2 : ∀ x ∈ l, x ∈ t) : l.length ≤ t.length := by
  calc l.length = l.toFinset.card := (List.toFinset_card_of_nodup h1).symm
    _ ≤ t.toFinset.card :=
        Finset.card_le_card (fun x hx => List.mem_toFinset.mpr (h2 x (List.mem_toFinset.mp hx)))
    _ ≤ t.length := List.toFinset_card_le t

/-- Every flattened row carries the id of one of the input orders. -/
theorem unwindJoin_orderId_mem (store : List Product) (orders : List OrderDoc) :
    ∀ r ∈ unwindJoin store orders, r.orderId ∈ orders.map (fun o => o.id) := by
  intro r hr
  simp only [unwindJoin, List.mem_flatMap, List.mem_map] at hr
  obtain ⟨o, ho, it, hit, p, hp, hre⟩ := hr
  subst hre
  exact List.mem_map.mpr ⟨o, ho, rfl⟩

/-- The group stage emits at most one group per input order. -/
theorem groupRows_length_le (store : List Product) (orders : List OrderDoc) :
    (groupRows (unwindJoin store orders)).length ≤ orders.length := by
  have hd := dedupKeys_spec ((unwindJoin store orders).map (fun r => r.orderId)) []
  have hsub : ∀ x ∈ dedupKeys [] ((unwindJoin store orders).map (fun r => r.orderId)),
      x ∈ orders.map (fun o => o.id) := by
    intro x hx
    rcases List.mem_map.mp (hd.2 x hx).1 with ⟨r, hr, hre⟩
    subst hre
    exact unwindJoin_orderId_mem store orders r hr
  calc (groupRows (unwindJoin store orders)).length
      = (dedupKeys [] ((unwindJoin store orders).map (fun r => r.orderId))).length := by
        simp [groupRows]
    _ ≤ (orders.map (fun o => o.id)).length := nodup_sub_length_le hd.1 hsub
    _ = orders.length := by simp

/-- Every key of the input stream that was not already seen appears among the
grouping keys. -/
theorem dedupKeys_complete (ks : List String) : ∀ seen : List String,
    ∀ x ∈ ks, ¬ x ∈ seen → x ∈ dedupKeys seen ks := by
  induction ks with
  | nil =>
    intro seen x hx
    exact absurd hx (List.not_mem_nil x)
  | cons k ks ih =>
    intro seen x hx hns
    by_cases h : seen.contains k = true
    · rw [dedupKeys, if_pos h]
      rcases List.mem_cons.mp hx with rfl | hx2
      · exact absurd (by simpa using h) hns
      · exact ih seen x hx2 hns
    · rw [dedupKeys, if_neg h]
      rcases List.mem_cons.mp hx with rfl | hx2
      · exact List.mem_cons_self _ _
      · by_cases hxk : x = k
        · subst hxk
          exact List.mem_cons_self _ _
        · refine List.mem_cons_of_mem _ (ih (k :: seen) x hx2 ?_)
          intro hs
          rcases List.mem_cons.mp hs with h1 | h2
          · exact hxk h1
          · exact hns h2

/-- Every row of the flattened stream appears, in its projected shape, inside
the output group carrying its parent order id. -/
theorem groupRows_appearance (rows : List ItemRow) :
    ∀ r ∈ rows, ∃ v, v ∈ groupRows rows ∧ v.id = r.orderId ∧
      ({ qty := r.qty, productDetails := { id := r.product.id, name := r.product.name } }
        : ItemOut) ∈ v.items := by
  intro r hr
  have hk : r.orderId ∈ dedupKeys [] (rows.map (fun r2 => r2.orderId)) :=
    dedupKeys_complete _ [] r.orderId (List.mem_map.mpr ⟨r, hr, rfl⟩)
      (List.not_mem_nil r.orderId)
  refine ⟨_, List.mem_map.mpr ⟨r.orderId, hk, rfl⟩, rfl, ?_⟩
  exact List.mem_map.mpr ⟨r, List.mem_filter.mpr ⟨hr, by simp⟩, rfl⟩

/-- The ids of the fetched products are duplicate-free when the store ids are. -/
theorem findIn_ids_nodup (store : List Product) (ids : List String)
    (hnd : (store.map (fun p => p.id)).Nodup) :
    ((findIn store ids).map (fun p => p.id)).Nodup :=
  ((List.filter_sublist store).map (fun p => p.id)).nodup hnd

/-- Every fetched product has its id among the requested ids. -/
theorem findIn_ids_sub (store : List Product) (ids : List String) :
    ∀ p ∈ findIn store ids, p.id ∈ ids := by
  intro p hp
  have h := List.mem_filter.mp hp
  simpa using h.2

/-- Every fetched product comes from the store. -/
theorem findIn_mem_store (store : List Product) (ids : List String) :
    ∀ p ∈ findIn store ids, p ∈ store := by
  intro p hp
  exact (List.mem_filter.mp hp).1

/-- The `$in` fetch returns at most one product per distinct requested id. -/
theorem findIn_length_le_dedup (store : List Product) (ids : List String)
    (hnd : (store.map (fun p => p.id)).Nodup) :
    (findIn store ids).length ≤ ids.dedup.length := by
  have h1 := findIn_ids_nodup store ids hnd
  have h2 : ∀ x ∈ (findIn store ids).map (fun p => p.id), x ∈ ids.dedup := by
    intro x hx
    rcases List.mem_map.mp hx with ⟨p, hp, hpe⟩
    subst hpe
    exact List.mem_dedup.mpr (findIn_ids_sub store ids p hp)
  have h3 := nodup_sub_length_le h1 h2
  simpa using h3

/-- When some requested id matches no product at all, the fetch returns
strictly fewer products than there are requested ids. -/
theorem findIn_length_lt_of_absent (store : List Product) (ids : List String)
    (hnd : (store.map (fun p => p.id)).Nodup) (b : String) (hb : b ∈ ids)
    (habs : ∀ p ∈ store, p.id ≠ b) :
    (findIn store ids).length < ids.length := by
  have h1 := findIn_ids_nodup store ids hnd
  have hcard : ((findIn store ids).map (fun p => p.id)).toFinset.card
      = (findIn store ids).length := by
    rw [List.toFinset_card_of_nodup h1, List.length_map]
  have hsub : ((findIn store ids).map (fun p => p.id)).toFinset ⊆ ids.toFinset.erase b := by
    intro x hx
    rcases List.mem_map.mp (List.mem_toFinset.mp hx) with ⟨p, hp, hpe⟩
    subst hpe
    exact Finset.mem_erase.mpr
      ⟨habs p (findIn_mem_store store ids p hp),
        List.mem_toFinset.mpr (findIn_ids_sub store ids p hp)⟩
  have hb1 : b ∈ ids.toFinset := List.mem_toFinset.mpr hb
  have hle : (findIn store ids).length ≤ ids.toFinset.card - 1 := by
    rw [← hcard, ← Finset.card_erase_of_mem hb1]
    exact Finset.card_le_card hsub
  have hpos : 0 < ids.toFinset.card := Finset.card_pos.mpr ⟨b, hb1⟩
  exact lt_of_lt_of_le (lt_of_le_of_lt hle (Nat.sub_lt hpos one_pos)) (List.toFinset_card_le ids)

/-- A list with a repeated element strictly shrinks under dedup. -/
theorem dedup_length_lt_of_not_nodup {l : List String} (h : ¬ l.Nodup) :
    l.dedup.length < l.length := by
  have hsub := List.dedup_sublist l
  rcases lt_or_eq_of_le hsub.length_le with hlt | heq
  · exact hlt
  · exact absurd (hsub.eq_of_length heq ▸ List.nodup_dedup l) h

/-- When the fetch count matches the requested count, every requested id is
the id of some fetched product. -/
theorem findIn_complete (store : List Product) (ids : List String)
    (hnd : (store.map (fun p => p.id)).Nodup)
    (hlen : (findIn store ids).length = ids.length) :
    ∀ pid ∈ ids, ∃ p ∈ findIn store ids, p.id = pid := by
  have h1 := findIn_ids_nodup store ids hnd
  have hcard : ((findIn store ids).map (fun p => p.id)).toFinset.card = ids.length := by
    rw [List.toFinset_card_of_nodup h1, List.length_map, hlen]
  have hsub : ((findIn store ids).map (fun p => p.id)).toFinset ⊆ ids.toFinset := by
    intro x hx
    rcases List.mem_map.mp (List.mem_toFinset.mp hx) with ⟨p, hp, hpe⟩
    subst hpe
    exact List.mem_toFinset.mpr (findIn_ids_sub store ids p hp)
  have hge : ids.toFinset.card ≤ ((findIn store ids).map (fun p => p.id)).toFinset.card := by
    rw [hcard]
    exact List.toFinset_card_le ids
  have heq := Finset.eq_of_subset_of_card_le hsub hge
  intro pid hpid
  have hmem : pid ∈ ((findIn store ids).map (fun p => p.id)).toFinset := by
    rw [heq]
    exact List.mem_toFinset.mpr hpid
  rcases List.mem_map.mp (List.mem_toFinset.mp hmem) with ⟨p, hp, hpe⟩
  exact ⟨p, hp, hpe⟩

/-- A product id present among a product list is a key of its price map. -/
theorem priceMapGet_isSome_of_mem (products : List Product) (pid : String)
    (h : ∃ p ∈ products, p.id = pid) : ∃ q, priceMapGet products pid = some q := by
  rcases h with ⟨p, hp, hpe⟩
  have hrev : ∃ x ∈ products.reverse, (x.id == pid) = true :=
    ⟨p, List.mem_reverse.mpr hp, by simp [hpe]⟩
  have hsome := List.find?_isSome.mpr hrev
  rcases Option.isSome_iff_exists.mp hsome with ⟨p1, hp1⟩
  exact ⟨p1.price, by simp [priceMapGet, hp1]⟩

/-- Against a store with duplicate-free ids, the price-map lookup over the
fetched products agrees with the spec-side price of the referenced product,
whenever the id was actually fetched. -/
theorem priceMapGet_eq_specPrice (store : List Product) (ids : List String) (pid : String)
    (hnd : (store.map (fun p => p.id)).Nodup)
    (hmem : ∃ p ∈ findIn store ids, p.id = pid) :
    (priceMapGet (findIn store ids) pid).getD 0 = specPrice store pid := by
  rcases hmem with ⟨p, hp, hpe⟩
  have hrev : ∃ x ∈ (findIn store ids).reverse, (x.id == pid) = true :=
    ⟨p, List.mem_reverse.mpr hp, by simp [hpe]⟩
  rcases Option.isSome_iff_exists.mp (List.find?_isSome.mpr hrev) with ⟨p1, hp1⟩
  have h1id : p1.id = pid := by simpa using List.find?_some hp1
  have h1m : p1 ∈ store :=
    findIn_mem_store store ids p1 (List.mem_reverse.mp (List.mem_of_find?_eq_some hp1))
  have hs : ∃ x ∈ store, (x.id == pid) = true := ⟨p1, h1m, by simp [h1id]⟩
  rcases Option.isSome_iff_exists.mp (List.find?_isSome.mpr hs) with ⟨p2, hp2⟩
  have h2id : p2.id = pid := by simpa using List.find?_some hp2
  have h2m : p2 ∈ store := List.mem_of_find?_eq_some hp2
  have hpp : p1 = p2 :=
    List.inj_on_of_nodup_map hnd h1m h2m (by rw [h1id, h2id])
  simp [priceMapGet, specPrice, hp1, hp2, hpp]

/-- C1: for every order-listing request, the pagination window (skip `offset`,
then take `limit`) is applied to the sequence of orders sorted by created_at
descending before items are flattened into rows, and consequently the number
of order-groups returned never exceeds the requested `limit`. -/
theorem listOrders_paginates_orders_before_unwind (store : List Product)
    (orders : List OrderDoc) (uid : String) (limit offset : Nat) :
    (get_list_of_orders store orders uid limit offset).1 =
      (groupRows (unwindJoin store
        (((sortByCreatedDesc (orders.filter (fun o => o.userId == uid))).drop offset).take
          limit))).take limit ∧
    (groupRows (unwindJoin store
        (((sortByCreatedDesc (orders.filter (fun o => o.userId == uid))).drop offset).take
          limit))).length ≤ limit ∧
    (get_list_of_orders store orders uid limit offset).1.length ≤ limit := by
  refine ⟨rfl, ?_, ?_⟩
  · refine le_trans (groupRows_length_le store _) ?_
    rw [List.length_take]
    exact min_le_left _ _
  · show ((groupRows (unwindJoin store
        (((sortByCreatedDesc (orders.filter (fun o => o.userId == uid))).drop offset).take
          limit))).take limit).length ≤ limit
    rw [List.length_take]
    exact min_le_left _ _

/-- C3: for every order-listing request with requested limit L and offset F
returning n order-groups, the page metadata has `limit = n`, `next = str(F + n)`
and `previous = str(F - L)` when F - L is nonnegative, else the sentinel "-1"
(subtracting the requested limit, not the actual count). -/
theorem listOrders_page_fields (store : List Product) (orders : List OrderDoc)
    (uid : String) (limit offset : Nat) :
    (get_list_of_orders store orders uid limit offset).2.limit
      = (get_list_of_orders store orders uid limit offset).1.length ∧
    (get_list_of_orders store orders uid limit offset).2.next
      = toString ((offset : Int)
          + ((get_list_of_orders store orders uid limit offset).1.length : Int)) ∧
    (get_list_of_orders store orders uid limit offset).2.previous
      = (if (offset : Int) - (limit : Int) ≥ 0
          then toString ((offset : Int) - (limit : Int)) else "-1") := by
  refine ⟨rfl, rfl, ?_⟩
  show (pageOf offset limit (get_list_of_orders store orders uid limit offset).1.length).previous
      = _
  simp only [pageOf]
  by_cases hc : (offset : Int) - (limit : Int) ≥ 0
  · rw [if_pos hc, if_pos hc]
  · rw [if_neg hc, if_neg hc]
    decide

/-- C6: an order-listing request whose userId matches no orders succeeds with
empty data and page limit 0; when additionally offset = 0, the full response is
data [] with page limit 0, next "0", previous "-1". -/
theorem listOrders_zero_orders (store : List Product) (orders : List OrderDoc)
    (uid : String) (limit offset : Nat)
    (hnone : ∀ o ∈ orders, o.userId ≠ uid) (hlim : 1 ≤ limit) :
    (get_list_of_orders store orders uid limit offset).1 = [] ∧
    (get_list_of_orders store orders uid limit offset).2.limit = 0 ∧
    (offset = 0 →
      get_list_of_orders store orders uid limit offset
        = ([], { limit := 0, next := "0", previous := "-1" })) := by
  have hfil : orders.filter (fun o => o.userId == uid) = [] := by
    rw [List.filter_eq_nil_iff]
    intro o ho
    simpa using hnone o ho
  have hdata : (get_list_of_orders store orders uid limit offset).1 = [] := by
    simp [get_list_of_orders, hfil, sortByCreatedDesc, unwindJoin, groupRows, dedupKeys]
  refine ⟨hdata, ?_, ?_⟩
  · show (get_list_of_orders store orders uid limit offset).1.length = 0
    rw [hdata]
    rfl
  · intro h0
    subst h0
    have hneg : ¬ (((0 : Nat) : Int) - (limit : Int) ≥ 0) := by omega
    refine Prod.ext hdata ?_
    show pageOf 0 limit (get_list_of_orders store orders uid limit 0).1.length = _
    rw [hdata]
    simp only [pageOf, List.length_nil]
    rw [if_neg hneg]
    decide

/-- C9: a product-listing request whose name or size query parameter is the
empty string behaves exactly as if that parameter were absent. -/
theorem products_empty_params_ignored (store : List Product) (nm sz : Option String)
    (limit offset : Nat) :
    list_products store (some "") sz limit offset = list_products store none sz limit offset ∧
    list_products store nm (some "") limit offset = list_products store nm none limit offset := by
  constructor
  · have h : ∀ p : Product, nameCond (some "") p = nameCond none p := by
      intro p
      simp [nameCond]
    simp [list_products, h]
  · have h : ∀ p : Product, sizeCond (some "") p = sizeCond none p := by
      intro p
      simp [sizeCond]
    simp [list_products, h]

/-- C7 counterexample: with two products both matching name "shirt"
(case-insensitively) and size "M", a request with limit 1 returns only one of
them, so the response is not exactly the set of matching products. -/
theorem products_shirt_M_counterexample :
    ([shirtA, shirtB].filter (fun p => regexMatchI "shirt" p.name
        && p.sizes.any (fun e => e.size == "M"))) = [shirtA, shirtB] ∧
    (list_products [shirtA, shirtB] (some "shirt") (some "M") 1 0).1
      = [{ id := idA, name := "Shirt Alpha", price := 5 }] := by
  decide

/-- C7 (amended): for every product-listing request with name "shirt" and
size "M", the returned records are exactly the pagination window (skip
`offset`, take `limit`) of those products whose name contains "shirt" as a
case-insensitive substring and that have a size entry equal to "M", each
projected to \x7bid, name, price\x7d without the sizes field. -/
theorem products_shirt_M_window (store : List Product) (limit offset : Nat) :
    (list_products store (some "shirt") (some "M") limit offset).1 =
      (((store.filter (fun p => regexMatchI "shirt" p.name
          && p.sizes.any (fun e => e.size == "M"))).drop offset).take limit).map
        (fun p => ({ id := p.id, name := p.name, price := p.price } : ProductList)) := by
  have h : ∀ p : Product, (nameCond (some "shirt") p && sizeCond (some "M") p)
      = (regexMatchI "shirt" p.name && p.sizes.any (fun e => e.size == "M")) := by
    intro p
    have h1 : nameCond (some "shirt") p = regexMatchI "shirt" p.name := by
      simp only [nameCond]
      rw [if_neg (by decide)]
    have h2 : sizeCond (some "M") p = p.sizes.any (fun e => e.size == "M") := by
      simp only [sizeCond]
      rw [if_neg (by decide)]
    rw [h1, h2]
  simp only [list_products, h]

/-- C2: each flattened line-item row is joined to the product store by exact
productId-to-id match as an inner join: a row exists in the joined stream
exactly when a matching product exists in the store (a row whose productId
matches no product is silently dropped, with no error); every resolved row
appears in the group-stage output, as \x7bqty, productDetails: \x7bid, name\x7d\x7d
inside the group of its parent order; conversely every emitted item stems from
such a row; and the final cursor cap never cuts the group-stage output, which
is therefore exactly the data the endpoint returns. -/
theorem listOrders_join_inner (store : List Product) (orders : List OrderDoc) :
    (∀ r : ItemRow, r ∈ unwindJoin store orders ↔
      ∃ o, o ∈ orders ∧ ∃ it, it ∈ o.items ∧ r.product ∈ store ∧
        r.product.id = it.productId ∧ r.orderId = o.id ∧ r.total = o.total ∧ r.qty = it.qty) ∧
    (∀ r, r ∈ unwindJoin store orders →
      ∃ v, v ∈ groupRows (unwindJoin store orders) ∧ v.id = r.orderId ∧
        ({ qty := r.qty, productDetails := { id := r.product.id, name := r.product.name } }
          : ItemOut) ∈ v.items) ∧
    (∀ v, v ∈ groupRows (unwindJoin store orders) → ∀ x, x ∈ v.items →
      ∃ r, r ∈ unwindJoin store orders ∧ r.orderId = v.id ∧
        x = { qty := r.qty,
              productDetails := { id := r.product.id, name := r.product.name } }) ∧
    (∀ uid : String, ∀ limit offset : Nat,
      (get_list_of_orders store orders uid limit offset).1
        = groupRows (unwindJoin store
            (((sortByCreatedDesc (orders.filter (fun o => o.userId == uid))).drop offset).take
              limit))) := by
  refine ⟨?_, groupRows_appearance (unwindJoin store orders), ?_, ?_⟩
  · intro r
    constructor
    · intro hr
      simp only [unwindJoin, List.mem_flatMap, List.mem_map] at hr
      obtain ⟨o, ho, it, hit, p, hp, hre⟩ := hr
      subst hre
      have hpf := List.mem_filter.mp hp
      exact ⟨o, ho, it, hit, hpf.1, by simpa using hpf.2, rfl, rfl, rfl⟩
    · rintro ⟨o, ho, it, hit, hps, hpid, hoid, htot, hqty⟩
      simp only [unwindJoin, List.mem_flatMap, List.mem_map]
      refine ⟨o, ho, it, hit, r.product, List.mem_filter.mpr ⟨hps, by simp [hpid]⟩, ?_⟩
      cases r
      simp_all
  · intro v hv x hx
    simp only [groupRows, List.mem_map] at hv
    obtain ⟨k, hk, hve⟩ := hv
    subst hve
    simp only [List.mem_map, List.mem_filter] at hx
    obtain ⟨r, ⟨hr, hrk⟩, hxe⟩ := hx
    subst hxe
    exact ⟨r, hr, by simpa using hrk, rfl⟩
  · intro uid limit offset
    show (groupRows (unwindJoin store
        (((sortByCreatedDesc (orders.filter (fun o => o.userId == uid))).drop offset).take
          limit))).take limit = _
    apply List.take_of_length_le
    refine le_trans (groupRows_length_le store _) ?_
    rw [List.length_take]
    exact min_le_left _ _

/-- C4: against a store with duplicate-free ids, whenever create_order
persists an order, its total equals the sum over the request items of the
referenced product price times that item qty, evaluated at creation time. -/
theorem create_order_total_eq (store : List Product) (req : OrderCreate)
    (hnd : (store.map (fun p => p.id)).Nodup)
    (tr : List StoreOp) (u : String) (its : List OrderItem) (t : Int)
    (h : create_order store req = (tr, CreateResult.ok u its t)) :
    t = (req.items.map (fun it => specPrice store it.productId * it.qty)).sum := by
  simp only [create_order] at h
  cases hval : req.items.all (fun it => isValidObjectId it.productId) with
  | false =>
    rw [hval] at h
    simp at h
  | true =>
    rw [hval, if_pos rfl] at h
    cases hlen : ((findIn store (req.items.map (fun it => it.productId))).length
        == (req.items.map (fun it => it.productId)).length) with
    | false =>
      rw [hlen] at h
      simp at h
    | true =>
      rw [hlen, if_pos rfl] at h
      have h2 := congrArg Prod.snd h
      simp only at h2
      injection h2 with hu hits ht
      have hlen2 : (findIn store (req.items.map (fun it => it.productId))).length
          = (req.items.map (fun it => it.productId)).length := by
        simpa using hlen
      have hcong : ∀ it ∈ req.items,
          (priceMapGet (findIn store (req.items.map (fun it2 => it2.productId)))
            it.productId).getD 0 * it.qty
            = specPrice store it.productId * it.qty := by
        intro it hit
        have hpid : it.productId ∈ req.items.map (fun it2 => it2.productId) :=
          List.mem_map.mpr ⟨it, hit, rfl⟩
        rw [priceMapGet_eq_specPrice store _ it.productId hnd
          (findIn_complete store _ hnd hlen2 it.productId hpid)]
      rw [← ht]
      exact congrArg List.sum (List.map_congr_left hcong)

/-- C5: an order-creation request with a malformed product id is rejected with
HTTP 400 before any store access; one whose ids are all well-formed but
reference an absent product is rejected with HTTP 404 after the single product
fetch — in both cases no insert reaches the store and no order is created. -/
theorem create_order_invalid_or_absent (store : List Product) (req : OrderCreate) :
    ((∃ it ∈ req.items, isValidObjectId it.productId = false) →
      create_order store req = ([], CreateResult.err 400)) ∧
    ((store.map (fun p => p.id)).Nodup →
      (∀ it ∈ req.items, isValidObjectId it.productId = true) →
      (∃ it ∈ req.items, ∀ p ∈ store, p.id ≠ it.productId) →
      create_order store req
        = ([StoreOp.findProducts (req.items.map (fun it => it.productId))],
            CreateResult.err 404)) := by
  constructor
  · rintro ⟨it, hit, hbad⟩
    have hall : req.items.all (fun it => isValidObjectId it.productId) = false := by
      rw [List.all_eq_false]
      exact ⟨it, hit, by simp [hbad]⟩
    simp [create_order, hall]
  · rintro hnd hval ⟨it, hit, habs⟩
    have hall : req.items.all (fun it => isValidObjectId it.productId) = true :=
      List.all_eq_true.mpr (fun it2 h2 => hval it2 h2)
    have hb : it.productId ∈ req.items.map (fun it2 => it2.productId) :=
      List.mem_map.mpr ⟨it, hit, rfl⟩
    have hlt := findIn_length_lt_of_absent store _ hnd it.productId hb habs
    rw [List.length_map] at hlt
    have hne : ¬ (findIn store (req.items.map (fun it2 => it2.productId))).length
        = req.items.length := Nat.ne_of_lt hlt
    simp [create_order, hall, hne]

/-- C8 counterexample: a request whose items reference the valid, existing id
`idA` twice but also contain a malformed id fails with the validation error
400, not with the claimed not-found 404. -/
theorem dup_item_claim_counterexample :
    isValidObjectId idA = true ∧ shirtA.id = idA ∧
    create_order [shirtA]
        { userId := "u1",
          items := [{ productId := idA, qty := 1 }, { productId := idA, qty := 1 },
            { productId := "zz", qty := 1 }] }
      = ([], CreateResult.err 400) ∧
    CreateResult.err 400 ≠ CreateResult.err 404 := by
  decide

/-- C8 (amended): an order-creation request whose item ids are all well-formed
and whose items reference the same existing productId more than once fails
with the not-found response 404 and no order is created, because the count of
distinct products fetched is compared against the non-deduplicated count of
item productIds (store ids assumed duplicate-free, as for a unique `_id`). -/
theorem create_order_duplicate_items (store : List Product) (req : OrderCreate)
    (hnd : (store.map (fun p => p.id)).Nodup)
    (hval : ∀ it ∈ req.items, isValidObjectId it.productId = true)
    (hdup : ∃ pid, (∃ p ∈ store, p.id = pid) ∧
      2 ≤ (req.items.map (fun it => it.productId)).count pid) :
    create_order store req
      = ([StoreOp.findProducts (req.items.map (fun it => it.productId))],
          CreateResult.err 404) := by
  have hall : req.items.all (fun it => isValidObjectId it.productId) = true :=
    List.all_eq_true.mpr (fun it2 h2 => hval it2 h2)
  rcases hdup with ⟨pid, _, hcnt⟩
  have hnodup : ¬ (req.items.map (fun it => it.productId)).Nodup := by
    intro hn
    have hc1 := List.nodup_iff_count_le_one.mp hn pid
    omega
  have hlt : (findIn store (req.items.map (fun it => it.productId))).length
      < (req.items.map (fun it => it.productId)).length :=
    lt_of_le_of_lt (findIn_length_le_dedup store _ hnd) (dedup_length_lt_of_not_nodup hnodup)
  rw [List.length_map] at hlt
  have hne : ¬ (findIn store (req.items.map (fun it => it.productId))).length
      = req.items.length := Nat.ne_of_lt hlt
  simp [create_order, hall, hne]

/-- C10: when the product-count check of create_order passes, every item
productId is a key of the price map, so the default-to-0 fallback of the price
lookup in the total computation is unreachable (store ids assumed
duplicate-free, as for a unique `_id`). -/
theorem price_map_covers_items (store : List Product) (req : OrderCreate)
    (hnd : (store.map (fun p => p.id)).Nodup)
    (hlen : (findIn store (req.items.map (fun it => it.productId))).length
      = (req.items.map (fun it => it.productId)).length) :
    ∀ it ∈ req.items, ∃ q,
      priceMapGet (findIn store (req.items.map (fun it2 => it2.productId)))
        it.productId = some q := by
  intro it hit
  have hpid : it.productId ∈ req.items.map (fun it2 => it2.productId) :=
    List.mem_map.mpr ⟨it, hit, rfl⟩
  exact priceMapGet_isSome_of_mem _ _ (findIn_complete store _ hnd hlen it.productId hpid)

/-- Witness for C6 at a concrete input: user "u2" has no orders in [ord1]. -/
theorem listOrders_zero_orders_witness :
    (∀ o ∈ [ord1], o.userId ≠ "u2") ∧ (1 : Nat) ≤ 3 ∧
    (get_list_of_orders [shirtA] [ord1] "u2" 3 0).1 = [] ∧
    get_list_of_orders [shirtA] [ord1] "u2" 3 0
      = ([], { limit := 0, next := "0", previous := "-1" }) := by
  refine ⟨by decide, by decide, ?_, ?_⟩
  · exact (listOrders_zero_orders [shirtA] [ord1] "u2" 3 0 (by decide) (by decide)).1
  · exact (listOrders_zero_orders [shirtA] [ord1] "u2" 3 0 (by decide) (by decide)).2.2 rfl

/-- Witness for C2 at a concrete input: the row joining ord1 with shirtA is in
the flattened stream, and it appears in shape inside its output group. -/
theorem listOrders_join_inner_witness :
    row1 ∈ unwindJoin [shirtA] [ord1] ∧
    ∃ v, v ∈ groupRows (unwindJoin [shirtA] [ord1]) ∧ v.id = row1.orderId ∧
      ({ qty := row1.qty,
         productDetails := { id := row1.product.id, name := row1.product.name } }
        : ItemOut) ∈ v.items := by
  constructor
  · exact ((listOrders_join_inner [shirtA] [ord1]).1 row1).mpr
      ⟨ord1, by decide, { productId := idA, qty := 2 }, by decide, by decide, by decide,
        by decide, by decide, by decide⟩
  · exact (listOrders_join_inner [shirtA] [ord1]).2.1 row1 (by decide)

/-- Witness for C4 at a concrete input: the persisted total 31 equals
5 * 2 + 7 * 3 over the sample store. -/
theorem create_order_total_eq_witness :
    (31 : Int) = (req2.items.map (fun it => specPrice [shirtA, shirtB] it.productId
      * it.qty)).sum :=
  create_order_total_eq [shirtA, shirtB] req2 (by decide)
    [StoreOp.findProducts [idA, idB], StoreOp.insertOrder "u1" req2.items 31]
    "u1" req2.items 31 (by decide)

/-- Witness for C5 at concrete inputs: a malformed id is rejected with 400 and
no store access; a well-formed absent id is rejected with 404 after the fetch. -/
theorem create_order_invalid_or_absent_witness :
    create_order [shirtA] { userId := "u1", items := [{ productId := "zz", qty := 1 }] }
      = ([], CreateResult.err 400) ∧
    create_order [shirtA] { userId := "u1", items := [{ productId := idB, qty := 1 }] }
      = ([StoreOp.findProducts [idB]], CreateResult.err 404) := by
  constructor
  · exact (create_order_invalid_or_absent [shirtA]
      { userId := "u1", items := [{ productId := "zz", qty := 1 }] }).1
      ⟨{ productId := "zz", qty := 1 }, by decide, by decide⟩
  · exact (create_order_invalid_or_absent [shirtA]
      { userId := "u1", items := [{ productId := idB, qty := 1 }] }).2
      (by decide) (by decide) ⟨{ productId := idB, qty := 1 }, by decide, by decide⟩

/-- Witness for C8 (amended) at a concrete input: referencing the existing
`idA` twice yields 404 and no insert. -/
theorem create_order_duplicate_items_witness :
    create_order [shirtA]
        { userId := "u1",
          items := [{ productId := idA, qty := 1 }, { productId := idA, qty := 2 }] }
      = ([StoreOp.findProducts [idA, idA]], CreateResult.err 404) :=
  create_order_duplicate_items [shirtA]
    { userId := "u1",
      items := [{ productId := idA, qty := 1 }, { productId := idA, qty := 2 }] }
    (by decide) (by decide) ⟨idA, ⟨shirtA, by decide, by decide⟩, by decide⟩

/-- Witness for C10 at a concrete input: after a passing count check, `idA` is
a key of the price map. -/
theorem price_map_covers_items_witness :
    ∃ q, priceMapGet (findIn [shirtA, shirtB] (req2.items.map (fun it2 => it2.productId)))
      idA = some q :=
  price_map_covers_items [shirtA, shirtB] req2 (by decide) (by decide)
    { productId := idA, qty := 2 } (by decide)
